import Mathlib

/-!
Verification of the document QA pipeline of this repository: the recursive
character chunker, ingestion through the service facade, the loader and
upload dispatch, retrieval formatting and excerpt truncation. Definitions
are shallow embeddings of the python sources; the few pieces whose code is
external or absent from the sources are modelled from the specification and
marked as such in their doc comments.
-/

set_option maxRecDepth 40000

namespace DocQA

/-! ### Python string primitives -/

/-- Python whitespace characters, the set removed by str.strip(). -/
def isPyWs (c : Char) : Bool :=
  c == ' ' || c == '\t' || c == '\n' || c == '\r' || c == '\x0b' || c == '\x0c'

/-- Python str.strip(): remove leading and trailing whitespace. -/
def pyStrip (s : List Char) : List Char :=
  ((s.dropWhile isPyWs).reverse.dropWhile isPyWs).reverse

/-- Python str.join over character lists. -/
def joinWith (sep : List Char) : List (List Char) → List Char
  | [] => []
  | [x] => x
  | x :: xs => x ++ sep ++ joinWith sep xs

/-- Python str.join over strings. -/
def joinStr (sep : String) : List String → String
  | [] => ""
  | [x] => x
  | x :: xs => x ++ sep ++ joinStr sep xs

/-- Whether the first list is an initial segment of the second
(re.match of an escaped literal pattern). -/
def leadsWith : List Char → List Char → Bool
  | [], _ => true
  | _ :: _, [] => false
  | a :: as, b :: bs => a == b && leadsWith as bs

/-- re.search of an escaped literal pattern: it occurs somewhere in the text. -/
def occursIn (sep : List Char) : List Char → Bool
  | [] => sep.isEmpty
  | c :: cs => leadsWith sep (c :: cs) || occursIn sep cs

/-- Leftmost, non-overlapping split on a literal separator, as performed by
re.split on an escaped pattern.  The fuel argument bounds the recursion by
the length of the remaining text and is always sufficient at the call site. -/
def splitGo (sep : List Char) : Nat → List Char → List Char → List (List Char)
  | 0, rem, acc => [acc ++ rem]
  | Nat.succ fuel, rem, acc =>
    if leadsWith sep rem && !sep.isEmpty then
      acc :: splitGo sep fuel (rem.drop sep.length) []
    else
      match rem with
      | [] => [acc]
      | c :: cs => splitGo sep fuel cs (acc ++ [c])

/-- re.split of a text on a literal separator. -/
def listSplitOn (sep text : List Char) : List (List Char) :=
  if sep.isEmpty then [text] else splitGo sep text.length text []

/-! ### The recursive character text splitter
Embedded from langchain's RecursiveCharacterTextSplitter as instantiated by
src/ingestion/chunker.py and src/services/qa_service.py: keep_separator is
true (each separator occurrence is attached to the start of the following
piece), is_separator_regex is false, strip_whitespace is true and the length
function is len. -/

/-- _split_text_with_regex with keep_separator: split on the separator and
re-attach each separator occurrence to the start of the following piece,
discarding empty pieces. -/
def sepSplits (sep : List Char) (text : List Char) : List (List Char) :=
  match listSplitOn sep text with
  | [] => []
  | p :: ps => (p :: ps.map (fun q => sep ++ q)).filter (fun q => !q.isEmpty)

/-- _split_text_with_regex with the empty separator: list(text), discarding
empty pieces. -/
def charSplits (text : List Char) : List (List Char) :=
  (text.map (fun c => [c])).filter (fun q => !q.isEmpty)

/-- _join_docs: join the pieces, strip whitespace, drop the result if empty. -/
def joinDocs (sep : List Char) (docs : List (List Char)) : Option (List Char) :=
  let text := pyStrip (joinWith sep docs)
  if text.isEmpty then none else some text

/-- The pop loop of _merge_splits: drop pieces from the front of the running
window while the retained total exceeds the chunk overlap, or while the
incoming piece would not fit the chunk size beside a nonempty total.
(When the window is empty the running total is zero and the python loop has
already terminated, so the first equation is never reached with a guard that
would make python index an empty list.) -/
def popLoop (sz ov sepLen lenD : Nat) :
    List (List Char) → Nat → List (List Char) × Nat
  | [], total => ([], total)
  | c :: cur, total =>
    if total > ov ∨ (total + lenD + sepLen > sz ∧ total > 0) then
      popLoop sz ov sepLen lenD cur
        (total - (c.length + (if cur.isEmpty then 0 else sepLen)))
    else (c :: cur, total)

/-- The main loop of _merge_splits: grow a window of pieces; when the next
piece would overflow the chunk size, emit the joined window and keep at most
the trailing pieces that fit inside the overlap. -/
def mergeGo (sz ov : Nat) (sep : List Char) :
    List (List Char) → List (List Char) → Nat → List (List Char)
  | [], cur, _ => (joinDocs sep cur).toList
  | d :: rest, cur, total =>
    if total + d.length + (if cur.isEmpty then 0 else sep.length) > sz ∧ cur ≠ [] then
      (joinDocs sep cur).toList ++
        (let pr := popLoop sz ov sep.length d.length cur total
         mergeGo sz ov sep rest (pr.1 ++ [d])
           (pr.2 + d.length + (if pr.1.isEmpty then 0 else sep.length)))
    else
      mergeGo sz ov sep rest (cur ++ [d])
        (total + d.length + (if cur.isEmpty then 0 else sep.length))

/-- _merge_splits. -/
def mergeSplits (sz ov : Nat) (sep : List Char) (splits : List (List Char)) :
    List (List Char) :=
  mergeGo sz ov sep splits [] 0

/-- The piece loop of _split_text: pieces strictly below the chunk size are
collected and merged; an oversized piece flushes the collected pieces, then
is either recursively split with the remaining separators or, when none
remain, appended as is.  Since keep_separator is set, merging joins with the
empty separator. -/
def splitLoop (sz ov : Nat) (recFn : Option (List Char → List (List Char))) :
    List (List Char) → List (List Char) → List (List Char)
  | [], good => if good.isEmpty then [] else mergeSplits sz ov [] good
  | s :: restS, good =>
    if s.length < sz then
      splitLoop sz ov recFn restS (good ++ [s])
    else
      (if good.isEmpty then [] else mergeSplits sz ov [] good) ++
        (match recFn with
         | none => [s]
         | some f => f s) ++
        splitLoop sz ov recFn restS []

/-- _split_text: choose the first separator from the ordered candidate list
that occurs in the text (the empty separator always matches and character
splits the text; the last candidate is the default when none occurs), split
on it and process the pieces, recursing with the remaining candidates. -/
def splitTextRec (sz ov : Nat) : (seps : List String) → List Char → List (List Char)
  | [], text => [text]
  | s :: rest, text =>
    if s.data.isEmpty then
      splitLoop sz ov none (charSplits text) []
    else if occursIn s.data text then
      splitLoop sz ov
        (if rest.isEmpty then none else some (fun t => splitTextRec sz ov rest t))
        (sepSplits s.data text) []
    else if rest.isEmpty then
      splitLoop sz ov none (sepSplits s.data text) []
    else
      splitTextRec sz ov rest text

/-- The configuration of a RecursiveCharacterTextSplitter instance. -/
structure SplitterConfig where
  chunk_size : Nat
  chunk_overlap : Nat
  separators : List String
deriving DecidableEq

/-- split_text of a configured splitter. -/
def split_text (cfg : SplitterConfig) (text : List Char) : List (List Char) :=
  splitTextRec cfg.chunk_size cfg.chunk_overlap cfg.separators text

/-- Fixed sliding windows of 810 characters starting every 660 characters:
the reference behavior of the program's splitter configuration in the hard
character-cut regime, used to state the amended overlap claim. -/
def windowChunks (cs : List Char) : List (List Char) :=
  if h : cs.length ≤ 810 then [cs]
  else cs.take 810 :: windowChunks (cs.drop 660)
termination_by cs.length
decreasing_by
  simp only [List.length_drop]
  omega

/-- Three paragraphs of 500 characters: the chunker cuts at the paragraph
boundaries, producing three chunks with no overlap at all. -/
def c4text : List Char :=
  List.replicate 500 'a' ++ ('\n' :: '\n' :: []) ++ List.replicate 500 'b' ++
    ('\n' :: '\n' :: []) ++ List.replicate 500 'c'

/-! ### Data model -/

/-- A langchain Document: page content plus string metadata. -/
structure DocM where
  page_content : List Char
  metadata : List (String × String)
deriving DecidableEq

/-- dict.get with a default, over the metadata mapping. -/
def metaGet (md : List (String × String)) (k dflt : String) : String :=
  match md.lookup k with
  | some v => v
  | none => dflt

/-- split_documents: split each document's content and give every chunk the
document's metadata. -/
def split_documents (cfg : SplitterConfig) (docs : List DocM) : List DocM :=
  (docs.map (fun d => (split_text cfg d.page_content).map
    (fun c => DocM.mk c d.metadata))).flatten

/-! ### Splitter instances of the program -/

/-- The splitter built at corpus build time in src/ingestion/chunker.py. -/
def chunker_splitter : SplitterConfig :=
  ⟨810, 150, ["\n\n", "\n", ".", " ", ""]⟩

/-- The text_splitter built in QAService.__init__ for uploads
(src/services/qa_service.py). -/
def text_splitter : SplitterConfig :=
  ⟨810, 150, ["\n\n", "\n", ".", " ", ""]⟩

/-! ### Vector store (src/vectorstore/store.py) -/

/-- The index owned by the vector store: the ordered sequence of stored
documents, appended to by add_documents. -/
abbrev Index := List DocM

/-- The placeholder document the store is seeded with in
src/vectorstore/store.py. -/
def dummy_doc : DocM := ⟨("Placeholder").data, [(("source"), ("system"))]⟩

/-- Modelled from the spec: FAISS.from_documents is an external library call;
per section 4.4 the Index starts in a valid queryable state and failure is
surfaced only at construction (the library cannot build an index from an
empty document list, which is why store.py seeds a placeholder). -/
def from_documents (docs : List DocM) : Except String Index :=
  if docs.isEmpty then Except.error ("IndexError: empty document list")
  else Except.ok docs

/-- vector_store as constructed in src/vectorstore/store.py. -/
def vector_store : Except String Index := from_documents [dummy_doc]

/-- Stable insertion of a document into a descending-ranked list: it goes
after every strictly better entry and after every equally scored entry
already present. -/
def insertRanked (score : DocM → Int) (d : DocM) : List DocM → List DocM
  | [] => [d]
  | x :: xs => if score x < score d then d :: x :: xs else x :: insertRanked score d xs

/-- Stable descending sort by score: documents are inserted in store order,
so an equally scored earlier-inserted entry stays ahead of a later one,
the tie-breaking section 4.4 prescribes. -/
def sortDesc (score : DocM → Int) (l : List DocM) : List DocM :=
  l.foldl (fun acc d => insertRanked score d acc) []

/-- Modelled from the spec: Index.query (section 4.4) returns up to k entries
ranked by descending similarity, ties broken by insertion order; the
similarity of the query embedding to each entry is abstracted as a score
function. -/
def query (score : DocM → Int) (store : Index) (k : Nat) : List DocM :=
  (sortDesc score store).take k

/-! ### Chain formatting (src/chains/rag_chain.py) -/

/-- format_docs: join one block per document with a blank line; each block is
the Source label, the source metadata, a newline, a space (from the f-string)
and the page content. -/
def format_docs (docs : List DocM) : List Char :=
  joinWith ('\n' :: '\n' :: [])
    (docs.map (fun d =>
      ("Source: ").data ++ (metaGet d.metadata ("source") ("")).data ++
        '\n' :: ' ' :: d.page_content))

/-- A context block as the amended claim C8 words it: the Source label and
the source metadata, a newline and one space, then the chunk content. -/
def specBlock (d : DocM) : List Char :=
  ("Source: ").data ++ (metaGet d.metadata ("source") ("")).data ++
    '\n' :: ' ' :: d.page_content

/-- The amended context rendering: blocks in ranked order separated by a
blank line. -/
def specFormat : List DocM → List Char
  | [] => []
  | [d] => specBlock d
  | d :: rest => specBlock d ++ '\n' :: '\n' :: specFormat rest

/-! ### Service facade (src/services/qa_service.py) -/

/-- The external collaborators of QAService: the similarity scoring behind
the retriever (Modelled from the spec: retrievers/base.py is not among the
sources; section 4.5 specifies embed-then-query with a fixed k) and the
chain invocation (Modelled from the spec: prompt, language model and output
parser are external calls taking the formatted context and the question). -/
structure Env where
  score : List Char → DocM → Int
  chainInvoke : List Char → List Char → List Char

/-- The retriever built by get_retriver(k = 4): scores the stored documents
against the question and returns the top 4. -/
def retrieve (env : Env) (store : Index) (q : List Char) : List DocM :=
  query (env.score q) store 4

/-- QAService.ask: retrieve documents, format them as context, invoke the
chain, return the answer together with the retrieved documents. -/
def qa_ask (env : Env) (store : Index) (q : List Char) : List Char × List DocM :=
  let docs := retrieve env store q
  (env.chainInvoke (format_docs docs) q, docs)

/-- QAService.add_document: wrap the text as one document, split it with the
upload text_splitter, append the chunks to the vector store, return the
number of chunks. -/
def add_document (store : Index) (text_content : List Char)
    (metadata : List (String × String)) : Index × Nat :=
  let chunks := split_documents text_splitter [⟨text_content, metadata⟩]
  (store ++ chunks, chunks.length)

/-! ### Loader (src/ingestion/loader.py) -/

/-- Python str.lower() over the characters of a string. -/
def lowerStr (s : String) : String :=
  String.mk (s.data.map Char.toLower)

/-- pathlib suffix of a name: the part from the last dot, unless that dot is
the first or the last character of the name. -/
def rfindDotAux : List Char → Nat → Option Nat → Option Nat
  | [], _, acc => acc
  | c :: cs, i, acc => rfindDotAux cs (i + 1) (if c == '.' then some i else acc)

/-- Suffix of a final path component, following pathlib.PurePath.suffix. -/
def suffixOfName (nm : List Char) : List Char :=
  match rfindDotAux nm 0 none with
  | some i => if 0 < i ∧ i < nm.length - 1 then nm.drop i else []
  | none => []

/-- The final component of a path (the part after the last slash). -/
def lastComponent (l : List Char) : List Char :=
  (listSplitOn ('/' :: []) l).getLastD l

/-- Path(p).suffix for a file name or path. -/
def pathSuffix (fname : String) : String :=
  String.mk (suffixOfName (lastComponent fname.data))

/-- The third-party loader DocumentLoader.load_file would delegate to. -/
inductive LoaderChoice where
  | pyPDFLoader
  | docx2txtLoader
  | textLoader
deriving DecidableEq

/-- DocumentLoader.load_file: dispatch on the lowercased extension of the
path; anything but .pdf, .docx and .txt raises ValueError. -/
def load_file (file_path : String) : Except String LoaderChoice :=
  let ext := lowerStr (pathSuffix file_path)
  if ext = (".pdf") then Except.ok LoaderChoice.pyPDFLoader
  else if ext = (".docx") then Except.ok LoaderChoice.docx2txtLoader
  else if ext = (".txt") then Except.ok LoaderChoice.textLoader
  else Except.error ("unsupported file format")

/-- Whether an Except value is a success. -/
def exceptOk {ε α : Type} : Except ε α → Bool
  | Except.ok _ => true
  | Except.error _ => false

/-! ### HTTP layer (src/api_fastapi.py) -/

deriving instance DecidableEq for Except

/-- An HTTPException raised by the API layer. -/
structure HTTPErr where
  status : Nat
  detail : String
deriving DecidableEq

/-- One entry of an AnswerResponse sources list. -/
structure SourceR where
  source : String
  content : List Char
deriving DecidableEq

/-- The body returned by the ask endpoint. -/
structure AnswerResponse where
  answer : List Char
  sources : List SourceR
  question : List Char
deriving DecidableEq

/-- The observable outcome of one ask request: the response, the index after
the request, and how many language model calls were made. -/
structure AskOutcome where
  response : Except HTTPErr AnswerResponse
  store : Index
  modelCalls : Nat
deriving DecidableEq

/-- The excerpt built for a sources entry: the first 200 characters with an
ellipsis when the content is longer than 200 characters, the content itself
otherwise. -/
def excerptOf (s : List Char) : List Char :=
  if s.length > 200 then s.take 200 ++ ("...").data else s

/-- ask_question: reject a question that is empty or blank after stripping
with a 400 before any service call; otherwise ask the service and shape the
answer, the sources (with truncated excerpts) and the question into the
response. -/
def ask_question (env : Env) (store : Index) (q : List Char) : AskOutcome :=
  if q.isEmpty || (pyStrip q).isEmpty then
    ⟨Except.error ⟨400, ("Question cannot be empty")⟩, store, 0⟩
  else
    let r := qa_ask env store q
    ⟨Except.ok
      ⟨r.1,
       r.2.map (fun d => ⟨metaGet d.metadata ("source") ("unknown"),
                          excerptOf d.page_content⟩),
       q⟩,
     store, 1⟩

/-- An uploaded file: its client-reported name and the text its processing
would extract (Modelled from the spec: the PDF, DOCX and TXT parsers are
external libraries, so the extraction result is part of the model input). -/
structure UploadFileM where
  filename : String
  extractedText : List Char
deriving DecidableEq

/-- The success body returned by the upload endpoint; the warnings key is
present in the python response only when the list is nonempty. -/
structure UploadResp where
  files_processed : Nat
  filenames : List String
  warnings : List String
deriving DecidableEq

/-- The observable outcome of one upload request. -/
structure UploadOutcome where
  response : Except HTTPErr UploadResp
  store : Index
deriving DecidableEq

/-- The extensions the upload endpoint accepts. -/
def allowedExts : List String := [(".txt"), (".pdf"), (".docx"), (".doc")]

/-- The loop state of upload_files. -/
structure UploadState where
  processed : List String
  errors : List String
  store : Index

/-- One iteration of the upload loop: an unsupported extension or blank
extracted text records a warning; otherwise the text is added to the vector
store through QAService.add_document. -/
def uploadStep (st : UploadState) (f : UploadFileM) : UploadState :=
  let ext := lowerStr (pathSuffix f.filename)
  if ¬ ext ∈ allowedExts then
    ⟨st.processed, st.errors ++ [f.filename ++ (": Unsupported file type")], st.store⟩
  else if (pyStrip f.extractedText).isEmpty then
    ⟨st.processed, st.errors ++ [f.filename ++ (": No text content found")], st.store⟩
  else
    ⟨st.processed ++ [f.filename], st.errors,
     (add_document st.store f.extractedText [(("source"), f.filename)]).1⟩

/-- upload_files: validate and ingest each file in turn.  With no processed
file the loop raises HTTPException(400) naming the per-file errors, but that
raise happens inside the endpoint try block whose catch-all except clause
re-raises HTTPException(500) around str(e), which for an HTTPException is
the status code, a colon and the detail; the observable outcome is therefore
a 500 wrapping the 400 text.  Otherwise the response reports the processed
count, the names and any warnings. -/
def upload_files (store : Index) (files : List UploadFileM) : UploadOutcome :=
  if files.isEmpty then ⟨Except.error ⟨400, ("No files provided")⟩, store⟩
  else
    let st := files.foldl uploadStep ⟨[], [], store⟩
    if st.processed.isEmpty then
      ⟨Except.error ⟨500, ("Error processing files: ") ++ (("400: ") ++
          (("No files were processed successfully. Errors: ") ++
            joinStr ("; ") st.errors))⟩, st.store⟩
    else
      ⟨Except.ok ⟨st.processed.length, st.processed, st.errors⟩, st.store⟩

/-! ### Small helper lemmas -/

lemma pyStrip_nil : pyStrip [] = [] := rfl

lemma pyStrip_isEmpty_of_isEmpty (q : List Char) (h : q.isEmpty = true) :
    (pyStrip q).isEmpty = true := by
  cases q with
  | nil => rfl
  | cons c cs => simp [List.isEmpty] at h

lemma isEmpty_false_of_pyStrip (q : List Char) (h : (pyStrip q).isEmpty = false) :
    q.isEmpty = false := by
  cases hq : q.isEmpty with
  | false => rfl
  | true => rw [pyStrip_isEmpty_of_isEmpty q hq] at h; exact absurd h (by simp)

lemma foldl_add_document_mem (adds : List (List Char × List (String × String))) :
    ∀ (st : Index) (d : DocM), d ∈ st →
      d ∈ adds.foldl (fun st a => (add_document st a.1 a.2).1) st := by
  induction adds with
  | nil => intro st d h; exact h
  | cons a rest ih => intro st d h; exact ih _ _ (List.mem_append_left _ h)

lemma ask_question_blank (env : Env) (store : Index) (q : List Char)
    (h : (pyStrip q).isEmpty = true) :
    ask_question env store q =
      ⟨Except.error ⟨400, ("Question cannot be empty")⟩, store, 0⟩ := by
  have hc : (q.isEmpty || (pyStrip q).isEmpty) = true := by
    rw [h, Bool.or_true]
  unfold ask_question
  rw [if_pos hc]

lemma ask_question_nonblank (env : Env) (store : Index) (q : List Char)
    (h : (pyStrip q).isEmpty = false) :
    ask_question env store q =
      ⟨Except.ok
        ⟨env.chainInvoke (format_docs (retrieve env store q)) q,
         (retrieve env store q).map (fun d =>
           ⟨metaGet d.metadata ("source") ("unknown"),
            excerptOf d.page_content⟩),
         q⟩,
       store, 1⟩ := by
  have hq : q.isEmpty = false := isEmpty_false_of_pyStrip q h
  have hc : (q.isEmpty || (pyStrip q).isEmpty) = false := by
    rw [hq, h, Bool.or_self]
  unfold ask_question
  rw [if_neg (by simp [hc])]
  rfl

/-! ### Claims -/

/-- Claim C1: for every non-blank content string and metadata mapping,
QAService.add_document splits the content with exactly the corpus build time
chunking configuration of src/ingestion/chunker.py, appends the resulting
chunks to the index, and returns the number of chunks appended. -/
theorem C1_add_document_matches_corpus_config
    (store : Index) (content : List Char) (md : List (String × String))
    (hnb : (pyStrip content).isEmpty = false) :
    text_splitter = chunker_splitter ∧
    add_document store content md =
      (store ++ split_documents chunker_splitter [⟨content, md⟩],
       (split_documents chunker_splitter [⟨content, md⟩]).length) :=
  ⟨rfl, rfl⟩

/-- Witness for C1 at a concrete non-blank content and metadata. -/
theorem C1_witness :
    (pyStrip ("hello world").data).isEmpty = false ∧
    (text_splitter = chunker_splitter ∧
     add_document [dummy_doc] ("hello world").data [(("source"), ("notes.txt"))] =
       ([dummy_doc] ++
          split_documents chunker_splitter
            [⟨("hello world").data, [(("source"), ("notes.txt"))]⟩],
        (split_documents chunker_splitter
            [⟨("hello world").data, [(("source"), ("notes.txt"))]⟩]).length)) :=
  ⟨by decide,
   C1_add_document_matches_corpus_config [dummy_doc] ("hello world").data
     [(("source"), ("notes.txt"))] (by decide)⟩

/-- Claim C2: both splitter instances of the program use exactly the ordered
candidate separator list paragraph boundary, line boundary, sentence
boundary, word boundary, hard character cut. -/
theorem C2_separator_preference_list :
    chunker_splitter.separators = [("\n\n"), ("\n"), ("."), (" "), ("")] ∧
    text_splitter.separators = [("\n\n"), ("\n"), ("."), (" "), ("")] :=
  ⟨rfl, rfl⟩

/-- Claim C3: a question blank after trimming is rejected by the ask
endpoint with a 400 before any service work, leaving the index unchanged and
making no model call; a non-blank question is answered by the retriever
composed with the answer chain. -/
theorem C3_ask_blank_and_nonblank (env : Env) (store : Index) (q : List Char) :
    ((pyStrip q).isEmpty = true →
      ask_question env store q =
        ⟨Except.error ⟨400, ("Question cannot be empty")⟩, store, 0⟩) ∧
    ((pyStrip q).isEmpty = false →
      ask_question env store q =
        ⟨Except.ok
          ⟨env.chainInvoke (format_docs (retrieve env store q)) q,
           (retrieve env store q).map (fun d =>
             ⟨metaGet d.metadata ("source") ("unknown"),
              excerptOf d.page_content⟩),
           q⟩,
         store, 1⟩) :=
  ⟨ask_question_blank env store q, ask_question_nonblank env store q⟩

/-- Witness for C3: the blank question with two spaces is rejected with the
index untouched and zero model calls, and a concrete non-blank question goes
through retrieval and composition. -/
theorem C3_witness :
    ask_question ⟨fun _ _ => 0, fun _ _ => []⟩ [dummy_doc] (' ' :: ' ' :: []) =
      ⟨Except.error ⟨400, ("Question cannot be empty")⟩, [dummy_doc], 0⟩ ∧
    ask_question ⟨fun _ _ => 0, fun _ _ => []⟩ [dummy_doc] ('h' :: 'i' :: []) =
      ⟨Except.ok
        ⟨[],
         [⟨("system"), ("Placeholder").data⟩],
         ('h' :: 'i' :: [])⟩,
       [dummy_doc], 1⟩ :=
  ⟨(C3_ask_blank_and_nonblank ⟨fun _ _ => 0, fun _ _ => []⟩ [dummy_doc]
      (' ' :: ' ' :: [])).1 (by decide),
   (C3_ask_blank_and_nonblank ⟨fun _ _ => 0, fun _ _ => []⟩ [dummy_doc]
      ('h' :: 'i' :: [])).2 (by decide)⟩

/-- Claim C5: the vector store of store.py is successfully constructed in a
queryable singleton-placeholder state, and a query against that fresh index
returns a ranked list for every scoring and every k, never a failure. -/
theorem C5_fresh_index_queryable :
    vector_store = Except.ok [dummy_doc] ∧
    ∀ (score : DocM → Int) (k : Nat),
      query score [dummy_doc] k = [dummy_doc].take k :=
  ⟨rfl, fun _ _ => rfl⟩

/-- Claim C6 counterexample: with a single .exe upload the endpoint does not
return a body at all (so no files_processed field equal to zero); the inner
400 is swallowed by the catch-all and the request fails with a 500 whose
detail wraps the unsupported-file-type warning text. -/
theorem C6_counterexample_exe_upload :
    (upload_files [dummy_doc] [⟨("malware.exe"), ('x' :: [])⟩]).response =
      Except.error ⟨500,
        ("Error processing files: 400: No files were processed successfully. Errors: malware.exe: Unsupported file type")⟩ ∧
    exceptOk (upload_files [dummy_doc] [⟨("malware.exe"), ('x' :: [])⟩]).response
      = false := by
  exact ⟨by decide, by decide⟩

/-- Claim C6 amended: a single uploaded file whose extension is not allowed
makes the upload fail with a 500 whose detail wraps the caught inner 400 and
contains the warning text name colon Unsupported file type, and the index is
unchanged; no success body (and hence no files_processed count) is
produced. -/
theorem C6_unsupported_single_upload (store : Index) (f : UploadFileM)
    (hext : ¬ lowerStr (pathSuffix f.filename) ∈ allowedExts) :
    upload_files store [f] =
      ⟨Except.error ⟨500, ("Error processing files: ") ++ (("400: ") ++
          (("No files were processed successfully. Errors: ") ++
            (f.filename ++ (": Unsupported file type"))))⟩, store⟩ := by
  unfold upload_files
  rw [if_neg (by simp)]
  show (if (List.foldl uploadStep ⟨[], [], store⟩ [f]).processed.isEmpty
          then _ else _) = _
  unfold uploadStep
  rw [List.foldl_cons, List.foldl_nil]
  rw [if_pos hext]
  rfl

/-- Witness for C6 amended at a concrete disallowed extension. -/
theorem C6_witness :
    upload_files [dummy_doc] [⟨("virus.bat"), ("hello").data⟩] =
      ⟨Except.error ⟨500, ("Error processing files: ") ++ (("400: ") ++
          (("No files were processed successfully. Errors: ") ++
            (("virus.bat") ++ (": Unsupported file type"))))⟩, [dummy_doc]⟩ :=
  C6_unsupported_single_upload [dummy_doc] ⟨("virus.bat"), ("hello").data⟩
    (by decide)

/-- Claim C7: DocumentLoader.load_file succeeds exactly on the lowercased
extensions .pdf, .docx and .txt, and fails with the unsupported file format
error on every other extension. -/
theorem C7_load_file_extension_dispatch (file_path : String) :
    (exceptOk (load_file file_path) = true ↔
      lowerStr (pathSuffix file_path) ∈ [(".pdf"), (".docx"), (".txt")]) ∧
    (load_file file_path = Except.error ("unsupported file format") ↔
      ¬ lowerStr (pathSuffix file_path) ∈ [(".pdf"), (".docx"), (".txt")]) := by
  unfold load_file
  by_cases h1 : lowerStr (pathSuffix file_path) = (".pdf") <;>
    by_cases h2 : lowerStr (pathSuffix file_path) = (".docx") <;>
      by_cases h3 : lowerStr (pathSuffix file_path) = (".txt") <;>
        simp [h1, h2, h3, exceptOk]

/-- Claim C8 counterexample: a retrieved chunk is not rendered as the Source
label, newline, then immediately the content; the f-string of format_docs
inserts a space after the newline. -/
theorem C8_counterexample_block_format :
    format_docs [⟨('a' :: 'b' :: 'c' :: []), [(("source"), ("s"))]⟩] ≠
      ("Source: s").data ++ '\n' :: ('a' :: 'b' :: 'c' :: []) ∧
    format_docs [⟨('a' :: 'b' :: 'c' :: []), [(("source"), ("s"))]⟩] =
      ("Source: s").data ++ '\n' :: ' ' :: ('a' :: 'b' :: 'c' :: []) :=
  ⟨by decide, by decide⟩

/-- Claim C8 amended: the Answer Composer renders each retrieved chunk as
the Source label block with a newline and a single space before the content,
concatenated in ranked order with a blank-line separator. -/
lemma joinWith_cons_cons (sep x y : List Char) (ys : List (List Char)) :
    joinWith sep (x :: y :: ys) = x ++ sep ++ joinWith sep (y :: ys) := rfl

theorem C8_blocks_with_space : ∀ docs : List DocM, format_docs docs = specFormat docs
  | [] => rfl
  | [_] => rfl
  | d :: e :: tail => by
    have ih := C8_blocks_with_space (e :: tail)
    unfold format_docs at ih ⊢
    rw [List.map_cons] at ih ⊢
    rw [List.map_cons, joinWith_cons_cons, ih]
    simp [specFormat, specBlock, List.append_assoc]

/-- Claim C9: the excerpt of a sources entry keeps content of at most 200
characters unchanged, and otherwise is exactly the first 200 characters
followed by the three-character ellipsis marker. -/
theorem C9_excerpt_truncation (s : List Char) :
    (s.length ≤ 200 → excerptOf s = s) ∧
    (200 < s.length →
      (excerptOf s).length = 203 ∧
      (excerptOf s).take 200 = s.take 200 ∧
      (excerptOf s).drop 200 = ('.' :: '.' :: '.' :: [])) := by
  unfold excerptOf
  by_cases h : s.length > 200
  · rw [if_pos h]
    refine ⟨fun hle => absurd h (by omega), fun _ => ?_⟩
    have hlen : (s.take 200).length = 200 := by
      rw [List.length_take]; omega
    refine ⟨?_, ?_, ?_⟩
    · rw [List.length_append, hlen]; rfl
    · rw [List.take_append_eq_append_take, hlen]
      simp [List.take_take]
    · rw [List.drop_append_eq_append_drop, hlen]
      simp
  · rw [if_neg h]
    exact ⟨fun _ => rfl, fun hgt => absurd hgt h⟩

/-- Witness for C9 on a 201-character content and on a short content. -/
theorem C9_witness :
    excerptOf ('a' :: 'b' :: []) = ('a' :: 'b' :: []) ∧
    ((excerptOf (List.replicate 201 'z')).length = 203 ∧
     (excerptOf (List.replicate 201 'z')).take 200 =
       (List.replicate 201 'z').take 200 ∧
     (excerptOf (List.replicate 201 'z')).drop 200 = ('.' :: '.' :: '.' :: [])) :=
  ⟨(C9_excerpt_truncation ('a' :: 'b' :: [])).1 (by decide),
   (C9_excerpt_truncation (List.replicate 201 'z')).2 (by decide)⟩

/-- Claim C10: the index is constructed holding exactly the placeholder
document with content Placeholder and source system, the placeholder is
never removed by any sequence of document additions, and a non-blank
question asked of the fresh service surfaces the placeholder as a ranked
source whose source field is system. -/
theorem C10_placeholder_never_removed
    (adds : List (List Char × List (String × String))) (env : Env)
    (q : List Char) (hq : (pyStrip q).isEmpty = false) :
    vector_store = Except.ok [dummy_doc] ∧
    dummy_doc ∈ adds.foldl (fun st a => (add_document st a.1 a.2).1) [dummy_doc] ∧
    (ask_question env [dummy_doc] q).response =
      Except.ok ⟨env.chainInvoke (format_docs [dummy_doc]) q,
                 [⟨("system"), ("Placeholder").data⟩], q⟩ := by
  refine ⟨rfl, foldl_add_document_mem adds [dummy_doc] dummy_doc (by simp), ?_⟩
  have h := ask_question_nonblank env [dummy_doc] q hq
  rw [h]
  rfl

/-- Witness for C10 with one concrete addition and a concrete question. -/
theorem C10_witness :
    vector_store = Except.ok [dummy_doc] ∧
    dummy_doc ∈ [(('a' :: []), [(("source"), ("x.txt"))])].foldl
      (fun st a => (add_document st a.1 a.2).1) [dummy_doc] ∧
    (ask_question ⟨fun _ _ => 0, fun _ _ => []⟩ [dummy_doc]
        ('h' :: 'i' :: [])).response =
      Except.ok ⟨(fun (_ _ : List Char) => ([] : List Char))
                   (format_docs [dummy_doc]) ('h' :: 'i' :: []),
                 [⟨("system"), ("Placeholder").data⟩], ('h' :: 'i' :: [])⟩ :=
  C10_placeholder_never_removed [(('a' :: []), [(("source"), ("x.txt"))])]
    ⟨fun _ _ => 0, fun _ _ => []⟩ ('h' :: 'i' :: []) (by decide)

/-! ### The splitter in the hard character-cut regime
The following lemmas show that on text containing no separator occurrence
and no whitespace the splitter with the program's configuration produces
exactly the 810-character windows stepping by 660 characters, from which the
amended overlap claim follows. -/

lemma occursIn_false_of_head_not_mem (a : Char) (s : List Char) :
    ∀ l : List Char, a ∉ l → occursIn (a :: s) l = false := by
  intro l
  induction l with
  | nil => intro _; rfl
  | cons c cs ih =>
    intro h
    have hac : (a == c) = false := by
      simp only [beq_eq_false_iff_ne]
      intro he; exact h (he ▸ List.mem_cons_self c cs)
    have hcs : a ∉ cs := fun hm => h (List.mem_cons_of_mem c hm)
    simp only [occursIn, leadsWith, hac, Bool.false_and, Bool.false_or]
    exact ih hcs

lemma charSplits_eq (cs : List Char) :
    charSplits cs = cs.map (fun c => [c]) := by
  induction cs with
  | nil => rfl
  | cons c cs ih =>
    unfold charSplits at ih ⊢
    simp only [List.map_cons, List.filter_cons]
    simp [ih]

lemma splitLoop_small (sz ov : Nat) (recFn : Option (List Char → List (List Char))) :
    ∀ (pieces good : List (List Char)),
      (∀ p ∈ pieces, p.length < sz) →
      splitLoop sz ov recFn pieces good =
        if (good ++ pieces).isEmpty then []
        else mergeSplits sz ov [] (good ++ pieces) := by
  intro pieces
  induction pieces with
  | nil =>
    intro good _
    simp [splitLoop]
  | cons p ps ih =>
    intro good h
    have hp : p.length < sz := h p (List.mem_cons_self p ps)
    unfold splitLoop
    rw [if_pos hp]
    rw [ih (good ++ [p]) (fun q hq => h q (List.mem_cons_of_mem p hq))]
    rw [List.append_cons good p ps]

lemma joinWith_nil_map_singleton :
    ∀ xs : List Char, joinWith [] (xs.map (fun c => [c])) = xs
  | [] => rfl
  | [_] => rfl
  | c :: d :: xs => by
    have ih := joinWith_nil_map_singleton (d :: xs)
    simp only [List.map_cons] at ih ⊢
    rw [joinWith_cons_cons, ih]
    rfl

lemma dropWhile_eq_self_of_not (p : Char → Bool) (l : List Char)
    (h : ∀ c ∈ l, p c = false) : l.dropWhile p = l := by
  cases l with
  | nil => rfl
  | cons c cs =>
    rw [List.dropWhile_cons]
    rw [h c (List.mem_cons_self c cs)]
    simp

lemma pyStrip_eq_self (l : List Char) (h : ∀ c ∈ l, isPyWs c = false) :
    pyStrip l = l := by
  unfold pyStrip
  rw [dropWhile_eq_self_of_not isPyWs l h]
  rw [dropWhile_eq_self_of_not isPyWs l.reverse
    (fun c hc => h c (List.mem_reverse.mp hc))]
  exact List.reverse_reverse l

lemma joinDocs_nil_singletons (xs : List Char)
    (h : ∀ c ∈ xs, isPyWs c = false) (hne : xs ≠ []) :
    joinDocs [] (xs.map (fun c => [c])) = some xs := by
  unfold joinDocs
  rw [joinWith_nil_map_singleton, pyStrip_eq_self xs h]
  cases xs with
  | nil => exact absurd rfl hne
  | cons c cs => rfl

lemma popLoop_singletons (xs : List Char) :
    popLoop 810 150 0 1 (xs.map (fun c => [c])) xs.length =
      ((xs.drop (xs.length - 150)).map (fun c => [c]), min xs.length 150) := by
  induction xs with
  | nil => simp [popLoop]
  | cons c cs ih =>
    simp only [List.map_cons, List.length_cons]
    by_cases h : cs.length + 1 > 150
    · have hsub : cs.length + 1 - (([c] : List Char).length +
          (if (cs.map (fun c => [c])).isEmpty then 0 else 0)) = cs.length := by
        simp [ite_self]
      unfold popLoop
      rw [if_pos (Or.inl h)]
      rw [hsub, ih]
      have hd : (c :: cs).drop (cs.length + 1 - 150) = cs.drop (cs.length - 150) := by
        have he : cs.length + 1 - 150 = (cs.length - 150) + 1 := by omega
        rw [he, List.drop_succ_cons]
      have hm : min (cs.length + 1) 150 = min cs.length 150 := by omega
      rw [← hd, ← hm]
    · unfold popLoop
      rw [if_neg (by
        intro hco
        rcases hco with h1 | ⟨h2, _⟩ <;> omega)]
      have h1 : cs.length + 1 - 150 = 0 := by omega
      have h2 : min (cs.length + 1) 150 = cs.length + 1 := by omega
      rw [h1, h2, List.drop_zero, List.map_cons]

lemma windowChunks_eq (cs : List Char) :
    windowChunks cs =
      if cs.length ≤ 810 then [cs]
      else cs.take 810 :: windowChunks (cs.drop 660) := by
  conv_lhs => unfold windowChunks
  rw [dite_eq_ite]

lemma windowChunks_small (cs : List Char) (h : cs.length ≤ 810) :
    windowChunks cs = [cs] := by
  rw [windowChunks_eq, if_pos h]

lemma windowChunks_big (cs : List Char) (h : ¬ cs.length ≤ 810) :
    windowChunks cs = cs.take 810 :: windowChunks (cs.drop 660) := by
  rw [windowChunks_eq, if_neg h]

lemma mergeGo_step_small (rest' : List (List Char)) (xs : List Char) (c : Char)
    (h : xs.length < 810) :
    mergeGo 810 150 [] ([c] :: rest') (xs.map (fun z => [z])) xs.length
      = mergeGo 810 150 [] rest' ((xs ++ [c]).map (fun z => [z]))
          (xs ++ [c]).length := by
  simp only [mergeGo, List.length_nil, List.length_singleton, ite_self, Nat.add_zero]
  rw [if_neg ?hc]
  case hc => intro hco; exact absurd hco.1 (by omega)
  simp only [List.map_append, List.map_cons, List.map_nil, List.length_append,
    List.length_singleton]

lemma mergeGo_step_full (rest' : List (List Char)) (xs : List Char) (c : Char)
    (hx : ∀ z ∈ xs, isPyWs z = false) (hne : xs ≠ []) (hfull : xs.length = 810) :
    mergeGo 810 150 [] ([c] :: rest') (xs.map (fun z => [z])) xs.length
      = xs :: mergeGo 810 150 [] rest' ((xs.drop 660 ++ [c]).map (fun z => [z]))
          (xs.drop 660 ++ [c]).length := by
  simp only [mergeGo, List.length_nil, List.length_singleton, ite_self, Nat.add_zero]
  rw [if_pos ⟨by omega, fun hm => hne (List.map_eq_nil_iff.mp hm)⟩]
  rw [joinDocs_nil_singletons xs hx hne]
  rw [popLoop_singletons xs]
  simp only [List.map_append, List.map_cons, List.map_nil, List.length_append,
    List.length_singleton, List.length_drop, hfull, Option.toList_some,
    List.singleton_append, ite_self, Nat.add_zero]
  norm_num

lemma mergeGo_singletons :
    ∀ (rest xs : List Char),
      (∀ c ∈ xs, isPyWs c = false) → (∀ c ∈ rest, isPyWs c = false) →
      xs ≠ [] → xs.length ≤ 810 →
      mergeGo 810 150 [] (rest.map (fun z => [z])) (xs.map (fun z => [z])) xs.length
        = windowChunks (xs ++ rest) := by
  intro rest
  induction rest with
  | nil =>
    intro xs hx _ hne hlen
    simp only [List.map_nil, List.append_nil]
    simp only [mergeGo]
    rw [joinDocs_nil_singletons xs hx hne]
    rw [windowChunks_small xs hlen]
    rfl
  | cons c rest ih =>
    intro xs hx hr hne hlen
    have hcw : isPyWs c = false := hr c (List.mem_cons_self c rest)
    have hrest : ∀ z ∈ rest, isPyWs z = false :=
      fun z hz => hr z (List.mem_cons_of_mem c hz)
    simp only [List.map_cons]
    rcases Nat.lt_or_ge xs.length 810 with hlt | hge
    · rw [mergeGo_step_small (rest.map (fun z => [z])) xs c hlt]
      have hws : ∀ z ∈ xs ++ [c], isPyWs z = false := by
        intro z hz
        rcases List.mem_append.mp hz with h1 | h2
        · exact hx z h1
        · rw [List.mem_singleton.mp h2]; exact hcw
      rw [ih (xs ++ [c]) hws hrest (by simp)
        (by simp only [List.length_append, List.length_singleton]; omega)]
      rw [List.append_assoc, List.singleton_append]
    · have hfull : xs.length = 810 := le_antisymm hlen hge
      rw [mergeGo_step_full (rest.map (fun z => [z])) xs c hx hne hfull]
      have hws : ∀ z ∈ xs.drop 660 ++ [c], isPyWs z = false := by
        intro z hz
        rcases List.mem_append.mp hz with h1 | h2
        · exact hx z (List.drop_subset 660 xs h1)
        · rw [List.mem_singleton.mp h2]; exact hcw
      rw [ih (xs.drop 660 ++ [c]) hws hrest (by simp)
        (by simp only [List.length_append, List.length_singleton,
              List.length_drop, hfull]; omega)]
      have hbig : ¬ (xs ++ c :: rest).length ≤ 810 := by
        simp only [List.length_append, List.length_cons, hfull]; omega
      rw [windowChunks_big (xs ++ c :: rest) hbig]
      have htake : (xs ++ c :: rest).take 810 = xs := by
        rw [← hfull, List.take_left]
      have hdrop : (xs ++ c :: rest).drop 660 = xs.drop 660 ++ c :: rest := by
        rw [List.drop_append_eq_append_drop]
        have : 660 - xs.length = 0 := by omega
        rw [this, List.drop_zero]
      rw [htake, hdrop, List.append_assoc, List.singleton_append]

lemma split_text_sepfree (cs : List Char)
    (hws : ∀ c ∈ cs, isPyWs c = false ∧ c ≠ '.') (hne : cs ≠ []) :
    split_text chunker_splitter cs = windowChunks cs := by
  have hn : ('\n' : Char) ∉ cs := by
    intro hm
    have := (hws _ hm).1
    simp [isPyWs] at this
  have hdot : ('.' : Char) ∉ cs := fun hm => (hws _ hm).2 rfl
  have hsp : (' ' : Char) ∉ cs := by
    intro hm
    have := (hws _ hm).1
    simp [isPyWs] at this
  have h1 : occursIn ('\n' :: '\n' :: []) cs = false :=
    occursIn_false_of_head_not_mem '\n' ('\n' :: []) cs hn
  have h2 : occursIn ('\n' :: []) cs = false :=
    occursIn_false_of_head_not_mem '\n' [] cs hn
  have h3 : occursIn ('.' :: []) cs = false :=
    occursIn_false_of_head_not_mem '.' [] cs hdot
  have h4 : occursIn (' ' :: []) cs = false :=
    occursIn_false_of_head_not_mem ' ' [] cs hsp
  have e1 : ("\n\n" : String).data = '\n' :: '\n' :: [] := rfl
  have e2 : ("\n" : String).data = '\n' :: [] := rfl
  have e3 : ("." : String).data = '.' :: [] := rfl
  have e4 : (" " : String).data = ' ' :: [] := rfl
  have e5 : ("" : String).data = [] := rfl
  show splitTextRec 810 150 [("\n\n"), ("\n"), ("."), (" "), ("")] cs = _
  simp only [splitTextRec, e1, e2, e3, e4, e5, h1, h2, h3, h4,
    List.isEmpty_cons, List.isEmpty_nil, Bool.false_eq_true, if_false, if_true]
  rw [charSplits_eq]
  rw [splitLoop_small 810 150 none (cs.map (fun z => [z])) []
    (by
      intro p hp
      rcases List.mem_map.mp hp with ⟨z, _, hz⟩
      rw [← hz]
      simp)]
  simp only [List.nil_append]
  cases cs with
  | nil => exact absurd rfl hne
  | cons c cs' =>
    rw [if_neg (by simp)]
    unfold mergeSplits
    simp only [List.map_cons]
    simp only [mergeGo, List.length_nil, List.length_singleton, List.isEmpty_nil,
      ite_self, Nat.add_zero, Nat.zero_add]
    rw [if_neg (fun hco => hco.2 rfl)]
    simp only [List.nil_append]
    have hws1 : ∀ z ∈ ([c] : List Char), isPyWs z = false := by
      intro z hz
      rw [List.mem_singleton.mp hz]
      exact (hws c (List.mem_cons_self c cs')).1
    have hws2 : ∀ z ∈ cs', isPyWs z = false :=
      fun z hz => (hws z (List.mem_cons_of_mem c hz)).1
    have hstep := mergeGo_singletons cs' [c] hws1 hws2 (by simp) (by simp)
    simp only [List.map_cons, List.map_nil, List.length_singleton] at hstep
    rw [hstep, List.singleton_append]

lemma windowChunks_getD_zero (l : List Char) :
    (windowChunks l).getD 0 [] = l.take 810 := by
  by_cases h : l.length ≤ 810
  · rw [windowChunks_small l h, List.getD_cons_zero, List.take_of_length_le h]
  · rw [windowChunks_big l h, List.getD_cons_zero]

lemma windowChunks_overlap (n : Nat) :
    ∀ l : List Char, l.length ≤ n → ∀ i, i + 1 < (windowChunks l).length →
      ((windowChunks l).getD i []).drop
          (((windowChunks l).getD i []).length - 150)
        = ((windowChunks l).getD (i + 1) []).take 150 := by
  induction n with
  | zero =>
    intro l hl i hi
    rw [windowChunks_small l (by omega)] at hi
    simp at hi
  | succ n ih =>
    intro l hl i hi
    by_cases h : l.length ≤ 810
    · rw [windowChunks_small l h] at hi
      simp at hi
    · rw [windowChunks_big l h] at hi ⊢
      cases i with
      | zero =>
        rw [List.getD_cons_zero, List.getD_cons_succ]
        rw [windowChunks_getD_zero (l.drop 660)]
        have hlen : (l.take 810).length = 810 := by
          rw [List.length_take]
          omega
        rw [hlen]
        norm_num
        rw [List.drop_take 810 660 l, List.take_take]
        norm_num
      | succ j =>
        rw [List.getD_cons_succ, List.getD_cons_succ]
        apply ih (l.drop 660) (by rw [List.length_drop]; omega) j
        simp only [List.length_cons] at hi
        omega

/-- Claim C4 counterexample: three 500-character paragraphs are split at the
paragraph boundaries into three chunks of 500 characters; the first pair of
consecutive chunks is not the last pair, characters remain after it, and the
trailing 150 characters of the first chunk do not equal the leading 150
characters of the second, so consecutive chunks do not overlap by exactly
the configured overlap. -/
theorem C4_counterexample_exact_overlap :
    810 < c4text.length ∧
    (split_text chunker_splitter c4text).length = 3 ∧
    ¬ (((split_text chunker_splitter c4text).getD 0 []).drop
          (((split_text chunker_splitter c4text).getD 0 []).length - 150)
        = ((split_text chunker_splitter c4text).getD 1 []).take 150) :=
  ⟨by decide, by decide, by decide⟩

/-- Claim C4 amended: the exact 150-character overlap between consecutive
chunks holds in the hard character-cut regime, for content longer than
max_size that contains no separator and no whitespace character; there every
pair of consecutive chunks (the last pair included) overlaps by exactly 150
characters, the trailing 150 characters of each chunk being the leading 150
characters of the next.  When cuts happen at separator boundaries the
overlap consists of whole carried-over pieces and can be smaller or absent,
as the counterexample shows. -/
theorem C4_char_cut_exact_overlap (cs : List Char)
    (hws : ∀ c ∈ cs, isPyWs c = false ∧ c ≠ '.')
    (hlen : 810 < cs.length) (i : Nat)
    (hi : i + 1 < (split_text chunker_splitter cs).length) :
    ((split_text chunker_splitter cs).getD i []).drop
        (((split_text chunker_splitter cs).getD i []).length - 150)
      = ((split_text chunker_splitter cs).getD (i + 1) []).take 150 := by
  have hne : cs ≠ [] := by
    intro h
    rw [h] at hlen
    simp at hlen
  rw [split_text_sepfree cs hws hne] at hi ⊢
  exact windowChunks_overlap cs.length cs (le_refl _) i hi

/-- Witness for C4 amended: 811 copies of the letter x are split into two
chunks whose boundary overlap is exactly 150 characters. -/
theorem C4_witness :
    ((split_text chunker_splitter (List.replicate 811 'x')).getD 0 []).drop
        (((split_text chunker_splitter (List.replicate 811 'x')).getD 0 []).length
          - 150)
      = ((split_text chunker_splitter (List.replicate 811 'x')).getD 1 []).take 150 := by
  have hws : ∀ c ∈ List.replicate 811 'x', isPyWs c = false ∧ c ≠ '.' := by
    intro c hc
    rw [List.eq_of_mem_replicate hc]
    exact ⟨rfl, by decide⟩
  have hlen : 810 < (List.replicate 811 'x').length := by
    rw [List.length_replicate]
    omega
  have hne : List.replicate 811 'x' ≠ [] := by
    intro h
    rw [h] at hlen
    simp at hlen
  have hi : 0 + 1 < (split_text chunker_splitter (List.replicate 811 'x')).length := by
    rw [split_text_sepfree (List.replicate 811 'x') hws hne]
    rw [windowChunks_big _ (by rw [List.length_replicate]; omega)]
    rw [windowChunks_small _ (by rw [List.length_drop, List.length_replicate]; omega)]
    simp
  exact C4_char_cut_exact_overlap (List.replicate 811 'x') hws hlen 0 hi

end DocQA
